import Mathlib

/-!
Shallow embedding of `src/btc_analysis.py` (a BTC Bollinger-band monitor).

The script has two parts: a market-data acquirer (`fetch_binance` with a
ranked endpoint list and bounded retries, then `fetch_coingecko_fallback`)
and a pure indicator engine (`compute`) that turns a candle list into a
result record.  Prices and volumes are modelled as exact reals (the source
uses IEEE floats); network responses are supplied by explicit oracles
(`none` models any caught exception or invalid body); the wall clock read
by `utc_now()` is passed in as an explicit `now` argument.
-/

open Classical

noncomputable section

namespace BtcAnalysis

/-- One OHLCV candle row.  The source only ever reads index 4 (close
price, `c[4]`) and index 5 (volume, `c[5]`); the other columns are never
consumed downstream, so the embedding keeps just those two fields. -/
structure Candle where
  close : ℝ
  vol : ℝ

/-- Config: `LIMIT = 120`. -/
def LIMIT : ℕ := 120

/-- Config: `RETRIES = 3`. -/
def RETRIES : ℕ := 3

/-- Config: the ranked Binance mirror endpoints. -/
def BINANCE_URLS : List String :=
  ["https://api1.binance.com/api/v3/klines",
   "https://api2.binance.com/api/v3/klines",
   "https://api3.binance.com/api/v3/klines",
   "https://api-gateway.binance.com/api/v3/klines",
   "https://api.binance.com/api/v3/klines"]

/-- Python slice `l[-n:]` for `n > 0`: the last `min n l.length`
elements (the whole list when it is shorter than `n`). -/
def lastN {α : Type*} (n : ℕ) (l : List α) : List α :=
  l.drop (l.length - n)

/-- Arithmetic mean of a list, as `statistics.pstdev` uses internally
(and as the spec words the EMA seed). -/
def mean (l : List ℝ) : ℝ := l.sum / (l.length : ℝ)

/-- `statistics.pstdev`: population standard deviation,
`sqrt (Σ (x − mean)² / N)`.  The source raises `StatisticsError` on an
empty list; every use below has a nonempty argument (guarded in
`compute`). -/
def pstdev (l : List ℝ) : ℝ :=
  Real.sqrt ((l.map (fun x => (x - mean l) ^ 2)).sum / (l.length : ℝ))

/-- `ema(series, period)` from the source: `k = 2/(period+1)`, seed
`e = sum(series[:period]) / period`, then `e = p*k + e*(1-k)` for each
remaining element. -/
def ema (series : List ℝ) (period : ℕ) : ℝ :=
  let k : ℝ := 2 / ((period : ℝ) + 1)
  let e : ℝ := (series.take period).sum / (period : ℝ)
  (series.drop period).foldl (fun e p => p * k + e * (1 - k)) e

/-- `closes = [float(c[4]) for c in data]`. -/
def closes (data : List Candle) : List ℝ := data.map Candle.close

/-- `vols = [float(c[5]) for c in data]`. -/
def vols (data : List Candle) : List ℝ := data.map Candle.vol

/-- `sma20 = sum(closes[-20:]) / 20`. -/
def sma20 (data : List Candle) : ℝ := (lastN 20 (closes data)).sum / 20

/-- `std20 = statistics.pstdev(closes[-20:])`. -/
def std20 (data : List Candle) : ℝ := pstdev (lastN 20 (closes data))

/-- `upper = sma20 + 2 * std20`. -/
def upper (data : List Candle) : ℝ := sma20 data + 2 * std20 data

/-- `lower = sma20 - 2 * std20`. -/
def lower (data : List Candle) : ℝ := sma20 data - 2 * std20 data

/-- `safe_upper = upper * 1.005`. -/
def safe_upper (data : List Candle) : ℝ := upper data * 1.005

/-- `safe_lower = lower * 0.995`. -/
def safe_lower (data : List Candle) : ℝ := lower data * 0.995

/-- `ema12 = ema(closes, 12)`. -/
def ema12 (data : List Candle) : ℝ := ema (closes data) 12

/-- `ema26 = ema(closes, 26)`. -/
def ema26 (data : List Candle) : ℝ := ema (closes data) 26

/-- `trend = "UP" if ema12 > ema26 else "DOWN"`. -/
def trend (data : List Candle) : String :=
  if ema12 data > ema26 data then "UP" else "DOWN"

/-- `avg_vol20 = (sum(vols[-20:]) / 20) if sum(vols[-20:]) != 0 else 0.0`. -/
def avg_vol20 (data : List Candle) : ℝ :=
  if (lastN 20 (vols data)).sum ≠ 0 then (lastN 20 (vols data)).sum / 20 else 0

/-- `vols[-1]` (the source raises `IndexError` on an empty list; `compute`
guards the empty case, so the default is never reached there). -/
def last_vol (data : List Candle) : ℝ := (vols data).getLastD 0

/-- `rvol = (vols[-1] / avg_vol20) if avg_vol20 else 0.0`. -/
def rvol (data : List Candle) : ℝ :=
  if avg_vol20 data ≠ 0 then last_vol data / avg_vol20 data else 0

/-- `last = closes[-1]` (same remark on the empty list as `last_vol`). -/
def last (data : List Candle) : ℝ := (closes data).getLastD 0

/-- `cross = "ABOVE" if last > safe_upper else "BELOW" if last < safe_lower
else "no cross"`. -/
def cross (data : List Candle) : String :=
  if last data > safe_upper data then "ABOVE"
  else if last data < safe_lower data then "BELOW"
  else "no cross"

/-- Python `round(x, 2)` modelled on exact reals with Mathlib's
nearest-integer `round`.  The source's float `round` breaks exact ties to
even and operates on binary floats; the two agree away from exact decimal
ties, and no claim exercises a tie. -/
def round2 (x : ℝ) : ℝ := ((round (x * 100) : ℤ) : ℝ) / 100

/-- Python `round(x, 1)`, same modelling remark as `round2`. -/
def round1 (x : ℝ) : ℝ := ((round (x * 10) : ℤ) : ℝ) / 10

/-- `width = upper - lower`. -/
def width (data : List Candle) : ℝ := upper data - lower data

/-- `tol = width * 0.15`. -/
def tol (data : List Candle) : ℝ := width data * 0.15

/-- `recent = closes[-12:]`. -/
def recent (data : List Candle) : List ℝ := lastN 12 (closes data)

/-- `freqU = round(sum(1 for c in recent if abs(upper - c) <= tol) / 12 * 100, 1)`. -/
def freqU (data : List Candle) : ℝ :=
  round1 ((((recent data).countP (fun c => decide (|upper data - c| ≤ tol data)) : ℕ) : ℝ) / 12 * 100)

/-- `freqL = round(sum(1 for c in recent if abs(c - lower) <= tol) / 12 * 100, 1)`. -/
def freqL (data : List Candle) : ℝ :=
  round1 ((((recent data).countP (fun c => decide (|c - lower data| ≤ tol data)) : ℕ) : ℝ) / 12 * 100)

/-- The prediction of the source's decision chain (the source assigns
`prediction, emoji` in one tuple per branch; the two components are split
into `prediction` and `emoji` with identical branch conditions). -/
def prediction (data : List Candle) : String :=
  if cross data = "ABOVE" ∧ trend data = "UP" ∧ rvol data ≥ 1.5 then "UP (strong)"
  else if cross data = "BELOW" ∧ trend data = "DOWN" ∧ rvol data ≥ 1.5 then "DOWN (strong)"
  else if rvol data < 0.8 then "Weak " ++ trend data ++ " – Low Volume"
  else trend data

/-- The emoji component of the same decision chain. -/
def emoji (data : List Candle) : String :=
  if cross data = "ABOVE" ∧ trend data = "UP" ∧ rvol data ≥ 1.5 then "🟢"
  else if cross data = "BELOW" ∧ trend data = "DOWN" ∧ rvol data ≥ 1.5 then "🔴"
  else if rvol data < 0.8 then "⚪"
  else "⚪"

/-- The result dictionary returned by `compute`.  `freq_upper` and
`freq_lower` hold the numeric percentage; the source wraps them in a
`"...%"` string for presentation only. -/
structure Record where
  time : String
  last : ℝ
  volume : ℝ
  rvol : ℝ
  sma20 : ℝ
  upper : ℝ
  lower : ℝ
  safe_upper : ℝ
  safe_lower : ℝ
  ema12 : ℝ
  ema26 : ℝ
  trend : String
  freq_upper : ℝ
  freq_lower : ℝ
  cross : String
  prediction : String
  emoji : String

/-- `compute(data)`.  The wall clock read by `utc_now()` is the explicit
`now` argument.  `none` models the `IndexError`/`StatisticsError` the
source raises on an empty candle list, the only input on which it
errors. -/
def compute (data : List Candle) (now : String) : Option Record :=
  if data.isEmpty then none
  else some
    { time := now
      last := round2 (last data)
      volume := round2 (last_vol data)
      rvol := round2 (rvol data)
      sma20 := round2 (sma20 data)
      upper := round2 (upper data)
      lower := round2 (lower data)
      safe_upper := round2 (safe_upper data)
      safe_lower := round2 (safe_lower data)
      ema12 := round2 (ema12 data)
      ema26 := round2 (ema26 data)
      trend := trend data
      freq_upper := freqU data
      freq_lower := freqL data
      cross := cross data
      prediction := prediction data
      emoji := emoji data }

/-- The body-shape validation of `fetch_binance`: a response is accepted
iff it is a list with at least 20 entries (`isinstance(data, list) and
len(data) >= 20`); anything else raises (`ValueError` for a short or
non-list body) and is treated as a failed attempt. -/
def validate (r : Option (List Candle)) : Option (List Candle) :=
  match r with
  | some d => if 20 ≤ d.length then some d else none
  | none => none

/-- One pass of `fetch_binance` over a single endpoint: attempts
`1 .. RETRIES` in order.  The oracle `o url attempt` is the HTTP response
for that attempt: `none` models a transport error, a non-2xx status or a
non-list body (all raised and caught in the source); `some d` a parsed
candle list. -/
def fetchAttempt (o : String → ℕ → Option (List Candle)) (url : String) :
    Option (List Candle) :=
  (List.range RETRIES).findSome? fun a => validate (o url (a + 1))

/-- `fetch_binance()`: the first accepted response over endpoints ×
attempts, tagged `"Binance"`; `none` models the `(None, None)` return. -/
def fetch_binance (o : String → ℕ → Option (List Candle)) :
    Option (List Candle × String) :=
  (BINANCE_URLS.findSome? (fetchAttempt o)).map (fun d => (d, "Binance"))

/-- `fetch_coingecko_fallback()`.  `resp` is the parsed `prices` field of
the CoinGecko response (`none` models an exception, caught in the
source).  The source keeps the last `LIMIT` points, returns `(None, None)`
when empty, and otherwise synthesizes candles
`[0, 0, 0, 0, str(p[1]), "0"]`, i.e. close `p.2` and volume 0. -/
def fetch_coingecko_fallback (resp : Option (List (ℝ × ℝ))) :
    Option (List Candle × String) :=
  match resp with
  | none => none
  | some prices =>
    if (lastN LIMIT prices).isEmpty then none
    else some ((lastN LIMIT prices).map (fun p => ⟨p.2, 0⟩), "CoinGecko")

/-- The output artifact of one invocation.  `result` carries the record,
the source tag and the trailing 20 closes added for the chart;
`errorRecord` is the minimal failure payload of the `__main__` block;
`crash` models an uncaught exception (abnormal termination) and is
reachable only if `compute` were handed an empty list. -/
inductive Payload where
  | result (r : Record) (source : String) (closes20 : List ℝ)
  | errorRecord (time errMsg prediction emoji source : String)
  | crash

/-- The success path of `__main__`: `compute(data)`, `result["source"]`,
and `result["closes"] = closes[-20:]`. -/
def mkResult (d : List Candle) (s now : String) : Payload :=
  match compute d now with
  | some r => Payload.result r s (lastN 20 (closes d))
  | none => Payload.crash

/-- The acquisition part of `__main__`: `fetch_binance()`, then the
fallback only when it returned `None`. -/
def acquire (o : String → ℕ → Option (List Candle))
    (cg : Option (List (ℝ × ℝ))) : Option (List Candle × String) :=
  match fetch_binance o with
  | some x => some x
  | none => fetch_coingecko_fallback cg

/-- The whole `__main__` block.  The second component counts how many
times the fallback provider was consulted.  On total acquisition failure
the source writes the minimal payload and exits via `SystemExit(0)`,
i.e. terminates normally — modelled by returning `errorRecord`. -/
def runMain (o : String → ℕ → Option (List Candle))
    (cg : Option (List (ℝ × ℝ))) (now : String) : Payload × ℕ :=
  match fetch_binance o with
  | some (d, s) => (mkResult d s now, 0)
  | none =>
    match fetch_coingecko_fallback cg with
    | some (d, s) => (mkResult d s now, 1)
    | none =>
      (Payload.errorRecord now "Failed to fetch market data." "no data" "⚪" "none", 1)

/-- The spec's wording of the EMA ("seed the exponential average as the
simple mean of the first `period` closes, then fold forward over the
remaining closes with `e_new = price·k + e_old·(1−k)`, `k = 2/(period+1)`"),
as a second definition to compare with the source's `ema`. -/
def emaSpec (series : List ℝ) (period : ℕ) : ℝ :=
  (series.drop period).foldl
    (fun e price => price * (2 / ((period : ℝ) + 1)) + e * (1 - 2 / ((period : ℝ) + 1)))
    (mean (series.take period))

/-- The spec's prediction decision table as a function of the three
inputs it reads, in the spec's priority order. -/
def specPredTable (cross trend : String) (rvol : ℝ) : String :=
  if cross = "ABOVE" ∧ trend = "UP" ∧ rvol ≥ 1.5 then "UP (strong)"
  else if cross = "BELOW" ∧ trend = "DOWN" ∧ rvol ≥ 1.5 then "DOWN (strong)"
  else if rvol < 0.8 then "Weak " ++ trend ++ " – Low Volume"
  else trend

/-- Blank out the `time` field of a record (used to compare two runs of
`compute` up to the captured clock). -/
def stripTime (r : Record) : Record := { r with time := "" }

/-- An oracle on which every Binance request fails. -/
def oFail : String → ℕ → Option (List Candle) := fun _ _ => none

/-- A CoinGecko `prices` series with five points. -/
def cgFive : Option (List (ℝ × ℝ)) := some [(0, 1), (0, 2), (0, 3), (0, 4), (0, 5)]

/-- The five candles the fallback synthesizes from `cgFive`. -/
def candlesFive : List Candle := [⟨1, 0⟩, ⟨2, 0⟩, ⟨3, 0⟩, ⟨4, 0⟩, ⟨5, 0⟩]

/-- A flat market: 20 identical candles. -/
def flat (c v : ℝ) : List Candle := List.replicate 20 ⟨c, v⟩

/-- 18 closes at 1000 followed by two at 1010: the population σ of these
20 closes is exactly 3 (mean 1001), so `upper = 1007` and
`safe_upper = 1012.035`, putting the final close 1010 strictly between
the two. -/
def D6 : List Candle := List.replicate 18 ⟨1000, 1⟩ ++ [⟨1010, 1⟩, ⟨1010, 1⟩]

/-! ### Helper lemmas -/

theorem lastN_of_length_le {α : Type*} {n : ℕ} {l : List α} (h : l.length ≤ n) :
    lastN n l = l := by
  unfold lastN
  rw [Nat.sub_eq_zero_of_le h, List.drop_zero]

theorem lastN_append {α : Type*} (l₁ : List α) {l₂ : List α} {n : ℕ}
    (h : n ≤ l₂.length) : lastN n (l₁ ++ l₂) = lastN n l₂ := by
  unfold lastN
  rw [List.length_append,
    show l₁.length + l₂.length - n = l₁.length + (l₂.length - n) by omega,
    List.drop_append]

theorem closes_append (l₁ l₂ : List Candle) :
    closes (l₁ ++ l₂) = closes l₁ ++ closes l₂ := by
  simp [closes]

theorem length_closes (data : List Candle) : (closes data).length = data.length := by
  simp [closes]

theorem length_vols (data : List Candle) : (vols data).length = data.length := by
  simp [vols]

theorem sum_replicate_real (n : ℕ) (c : ℝ) : (List.replicate n c).sum = n * c := by
  rw [List.sum_replicate, nsmul_eq_mul]

theorem mean_replicate {n : ℕ} (hn : n ≠ 0) (c : ℝ) :
    mean (List.replicate n c) = c := by
  unfold mean
  rw [sum_replicate_real, List.length_replicate,
    mul_div_cancel_left₀ c (Nat.cast_ne_zero.mpr hn)]

theorem pstdev_replicate {n : ℕ} (hn : n ≠ 0) (c : ℝ) :
    pstdev (List.replicate n c) = 0 := by
  unfold pstdev
  rw [List.map_replicate, mean_replicate hn, sub_self,
    show ((0 : ℝ) ^ 2) = 0 by ring, sum_replicate_real]
  simp

theorem getLastD_replicate {n : ℕ} (hn : n ≠ 0) (c d : ℝ) :
    (List.replicate n c).getLastD d = c := by
  obtain ⟨m, rfl⟩ := Nat.exists_eq_succ_of_ne_zero hn
  rw [List.getLastD_eq_getLast? d, List.replicate_succ' m c]
  simp

theorem findSome?_prop {α β : Type*} {f : α → Option β} {P : β → Prop}
    (hf : ∀ a b, f a = some b → P b) :
    ∀ (l : List α) (b : β), l.findSome? f = some b → P b := by
  intro l
  induction l with
  | nil => intro b hb; simp [List.findSome?] at hb
  | cons a l ih =>
    intro b hb
    rw [List.findSome?_cons] at hb
    cases hfa : f a with
    | some b' => rw [hfa] at hb; exact hf a b (hfa.trans hb)
    | none => rw [hfa] at hb; exact ih b hb

/-! ### Facts about the flat market `flat c v` -/

theorem closes_flat (c v : ℝ) : closes (flat c v) = List.replicate 20 c := by
  simp [closes, flat]

theorem vols_flat (c v : ℝ) : vols (flat c v) = List.replicate 20 v := by
  simp [vols, flat]

theorem length_flat (c v : ℝ) : (flat c v).length = 20 := by
  simp [flat]

theorem sma20_flat (c v : ℝ) : sma20 (flat c v) = c := by
  unfold sma20
  rw [closes_flat, lastN_of_length_le (by simp), sum_replicate_real]
  norm_num

theorem std20_flat (c v : ℝ) : std20 (flat c v) = 0 := by
  unfold std20
  rw [closes_flat, lastN_of_length_le (by simp),
    pstdev_replicate (by norm_num) c]

theorem upper_flat (c v : ℝ) : upper (flat c v) = c := by
  unfold upper
  rw [sma20_flat, std20_flat]
  ring

theorem lower_flat (c v : ℝ) : lower (flat c v) = c := by
  unfold lower
  rw [sma20_flat, std20_flat]
  ring

theorem safe_upper_flat (c v : ℝ) : safe_upper (flat c v) = c * 1.005 := by
  unfold safe_upper
  rw [upper_flat]

theorem safe_lower_flat (c v : ℝ) : safe_lower (flat c v) = c * 0.995 := by
  unfold safe_lower
  rw [lower_flat]

theorem last_flat (c v : ℝ) : last (flat c v) = c := by
  unfold last
  rw [closes_flat, getLastD_replicate (by norm_num)]

theorem avg_vol20_flat_zero (c : ℝ) : avg_vol20 (flat c 0) = 0 := by
  unfold avg_vol20
  rw [vols_flat, lastN_of_length_le (by simp), sum_replicate_real]
  simp

theorem rvol_flat_zero (c : ℝ) : rvol (flat c 0) = 0 := by
  unfold rvol
  rw [avg_vol20_flat_zero]
  simp

theorem foldl_ema_const (k c : ℝ) :
    ∀ m : ℕ, (List.replicate m c).foldl (fun e p => p * k + e * (1 - k)) c = c := by
  intro m
  induction m with
  | zero => simp
  | succ m ih =>
    rw [List.replicate_succ, List.foldl_cons, show c * k + c * (1 - k) = c by ring]
    exact ih

theorem ema_replicate {p n : ℕ} (hp : p ≠ 0) (hpn : p ≤ n) (c : ℝ) :
    ema (List.replicate n c) p = c := by
  unfold ema
  have htake : (List.replicate n c).take p = List.replicate p c := by
    simp [min_eq_left hpn]
  have hdrop : (List.replicate n c).drop p = List.replicate (n - p) c := by
    simp
  rw [htake, hdrop, sum_replicate_real,
    mul_div_cancel_left₀ c (Nat.cast_ne_zero.mpr hp)]
  exact foldl_ema_const _ c (n - p)

/-! ### Facts about the witness data `D6` -/

theorem closes_D6 : closes D6 = List.replicate 18 (1000 : ℝ) ++ [1010, 1010] := by
  simp [closes, D6]

theorem length_D6 : D6.length = 20 := by
  simp [D6]

theorem mean_L6 : mean (List.replicate 18 (1000 : ℝ) ++ [1010, 1010]) = 1001 := by
  unfold mean
  simp only [List.sum_append, sum_replicate_real, List.sum_cons, List.sum_nil,
    List.length_append, List.length_replicate, List.length_cons, List.length_nil]
  norm_num

theorem sma20_D6 : sma20 D6 = 1001 := by
  unfold sma20
  rw [closes_D6, lastN_of_length_le (by simp)]
  simp only [List.sum_append, sum_replicate_real, List.sum_cons, List.sum_nil]
  norm_num

theorem std20_D6 : std20 D6 = 3 := by
  unfold std20
  rw [closes_D6, lastN_of_length_le (by simp)]
  unfold pstdev
  simp only [mean_L6, List.map_append, List.map_replicate, List.map_cons, List.map_nil,
    List.sum_append, sum_replicate_real, List.sum_cons, List.sum_nil,
    List.length_append, List.length_replicate, List.length_cons, List.length_nil]
  have h9 : Real.sqrt 9 = 3 := by
    rw [show (9 : ℝ) = 3 ^ 2 by norm_num]
    exact Real.sqrt_sq (by norm_num)
  convert h9 using 2
  push_cast
  norm_num

theorem upper_D6 : upper D6 = 1007 := by
  unfold upper
  rw [sma20_D6, std20_D6]
  norm_num

theorem last_D6 : last D6 = 1010 := by
  unfold last
  rw [closes_D6, List.getLastD_eq_getLast?, List.getLast?_append]
  simp

/-! ### Soundness of the two fetchers -/

theorem validate_sound {r : Option (List Candle)} {d : List Candle}
    (h : validate r = some d) : 20 ≤ d.length := by
  cases r with
  | none => simp [validate] at h
  | some dd =>
    simp only [validate] at h
    split at h
    · rename_i hl
      exact (Option.some.inj h) ▸ hl
    · simp at h

theorem fetch_binance_sound {o : String → ℕ → Option (List Candle)}
    {d : List Candle} {s : String} (h : fetch_binance o = some (d, s)) :
    s = "Binance" ∧ 20 ≤ d.length := by
  unfold fetch_binance at h
  obtain ⟨d', hd', heq⟩ := Option.map_eq_some'.mp h
  have hdd : d' = d := congrArg Prod.fst heq
  have hss : s = "Binance" := (congrArg Prod.snd heq).symm
  refine ⟨hss, ?_⟩
  rw [← hdd]
  have hurl : ∀ url d0, fetchAttempt o url = some d0 → 20 ≤ d0.length := by
    intro url d0 h0
    unfold fetchAttempt at h0
    exact findSome?_prop (fun a b hab => validate_sound hab) _ _ h0
  exact findSome?_prop hurl _ _ hd'

theorem fetch_coingecko_sound {cg : Option (List (ℝ × ℝ))}
    {d : List Candle} {s : String} (h : fetch_coingecko_fallback cg = some (d, s)) :
    s = "CoinGecko" ∧ d ≠ [] := by
  cases cg with
  | none => simp [fetch_coingecko_fallback] at h
  | some prices =>
    simp only [fetch_coingecko_fallback] at h
    split at h
    · simp at h
    · rename_i hk
      have heq := Option.some.inj h
      obtain ⟨hdd, hss⟩ := Prod.mk.inj heq
      subst hdd
      subst hss
      have hne : lastN LIMIT prices ≠ [] := by
        intro hnil
        rw [hnil] at hk
        exact hk rfl
      refine ⟨rfl, ?_⟩
      intro hmapnil
      exact hne (List.map_eq_nil_iff.mp hmapnil)

/-! ### Claim theorems -/

/-- C2 counterexample: on 20 candles all closing at 26, the reported
`ema26` is `sum(closes)/26 = 20`, while seeding with the arithmetic mean
of the (only 20 available) first closes — the spec's fold — gives 26, so
the claim as stated fails for sequences shorter than the period. -/
theorem ema_seed_cex :
    ema26 (flat 26 0) = 20 ∧ emaSpec (closes (flat 26 0)) 26 = 26 ∧
    ema26 (flat 26 0) ≠ emaSpec (closes (flat 26 0)) 26 := by
  have h1 : ema26 (flat 26 0) = 20 := by
    unfold ema26
    rw [closes_flat]
    simp only [ema]
    rw [List.take_of_length_le (by simp), List.drop_eq_nil_of_le (by simp),
      List.foldl_nil, sum_replicate_real]
    norm_num
  have h2 : emaSpec (closes (flat 26 0)) 26 = 26 := by
    rw [closes_flat]
    simp only [emaSpec]
    rw [List.take_of_length_le (by simp), List.drop_eq_nil_of_le (by simp),
      List.foldl_nil, mean_replicate (by norm_num)]
  refine ⟨h1, h2, ?_⟩
  rw [h1, h2]
  norm_num

/-- C2 (amended): for every candle sequence with at least `p` closes, the
EMA the source computes for period `p` is exactly the spec's fold — seed
with the arithmetic mean of the first `p` closes, then fold
`e_new = price*k + e_old*(1-k)` with `k = 2/(p+1)` over the remaining
closes; `ema12`/`ema26` are this EMA at periods 12 and 26.  (When the
sequence is shorter than `p` the source divides the sum of all closes by
`p`, which is not the arithmetic mean — see the counterexample.) -/
theorem ema_eq_spec_of_le_length (data : List Candle) (p : ℕ) (hp : p ≤ data.length) :
    ema (closes data) p = emaSpec (closes data) p ∧
    ema12 data = ema (closes data) 12 ∧ ema26 data = ema (closes data) 26 := by
  refine ⟨?_, rfl, rfl⟩
  have hlen : (((closes data).take p).length : ℝ) = (p : ℝ) := by
    rw [List.length_take, length_closes, min_eq_left hp]
  simp only [ema, emaSpec, mean, hlen]

/-- Witness for `ema_eq_spec_of_le_length` at a concrete input. -/
theorem ema_eq_spec_of_le_length_witness :
    12 ≤ (flat 2 0).length ∧
    (ema (closes (flat 2 0)) 12 = emaSpec (closes (flat 2 0)) 12 ∧
     ema12 (flat 2 0) = ema (closes (flat 2 0)) 12 ∧
     ema26 (flat 2 0) = ema (closes (flat 2 0)) 26) :=
  ⟨by simp [flat], ema_eq_spec_of_le_length (flat 2 0) 12 (by simp [flat])⟩

/-- C3: the prediction equals the spec's priority decision table applied
to (`cross`, `trend`, `rvol`), and whenever `rvol < 0.8` neither strong
rule can fire, so the output is the "Weak {trend}" form. -/
theorem prediction_table (data : List Candle) (h : 20 ≤ data.length) :
    prediction data = specPredTable (cross data) (trend data) (rvol data) ∧
    (rvol data < 0.8 → prediction data = "Weak " ++ trend data ++ " – Low Volume") := by
  constructor
  · rfl
  · intro hr
    have h1 : ¬(cross data = "ABOVE" ∧ trend data = "UP" ∧ rvol data ≥ 1.5) := by
      rintro ⟨-, -, hge⟩
      linarith
    have h2 : ¬(cross data = "BELOW" ∧ trend data = "DOWN" ∧ rvol data ≥ 1.5) := by
      rintro ⟨-, -, hge⟩
      linarith
    unfold prediction
    rw [if_neg h1, if_neg h2, if_pos hr]

/-- Witness for `prediction_table`: a flat zero-volume market has
`rvol = 0 < 0.8`, so the prediction is the weak form. -/
theorem prediction_table_witness :
    20 ≤ (flat 100 0).length ∧ rvol (flat 100 0) < 0.8 ∧
    prediction (flat 100 0) = "Weak " ++ trend (flat 100 0) ++ " – Low Volume" := by
  have hl : 20 ≤ (flat 100 0).length := by simp [flat]
  have hr : rvol (flat 100 0) < 0.8 := by
    rw [rvol_flat_zero]
    norm_num
  exact ⟨hl, hr, (prediction_table (flat 100 0) hl).2 hr⟩

/-- C4 counterexample: `compute` embeds `utc_now()` in the `time` field,
so two runs on the same candle sequence at different clock readings do
not yield identical records. -/
theorem compute_time_cex :
    compute (flat 1 1) "2025-01-01 00:00 UTC" ≠ compute (flat 1 1) "2025-01-02 00:00 UTC" := by
  intro h
  have he : (flat 1 1).isEmpty = false := by simp [flat]
  have h2 := congrArg (Option.map Record.time) h
  simp only [compute, he, Bool.false_eq_true, if_false, Option.map_some'] at h2
  exact absurd (Option.some.inj h2) (by decide)

/-- C4 (amended): `compute` is deterministic in every field except
`time`: two runs on the same candle sequence agree on all other fields
(here: the records agree after blanking `time`). -/
theorem compute_deterministic_mod_time (data : List Candle) (t₁ t₂ : String)
    (h : 20 ≤ data.length) :
    (compute data t₁).map stripTime = (compute data t₂).map stripTime := by
  unfold compute
  by_cases he : data.isEmpty
  · rw [if_pos he, if_pos he]
  · rw [if_neg he, if_neg he]
    rfl

/-- Witness for `compute_deterministic_mod_time` at a concrete input. -/
theorem compute_deterministic_mod_time_witness :
    20 ≤ (flat 1 1).length ∧
    (compute (flat 1 1) "2025-01-01 00:00 UTC").map stripTime =
      (compute (flat 1 1) "2025-01-02 00:00 UTC").map stripTime :=
  ⟨by simp [flat], compute_deterministic_mod_time (flat 1 1) _ _ (by simp [flat])⟩

/-- C5: `sma20`, `std20`, `upper`, `lower` only read the last 20 closes —
prepending arbitrary earlier candles leaves all four unchanged. -/
theorem bollinger_last20_only (pre data : List Candle) (h : 20 ≤ data.length) :
    sma20 (pre ++ data) = sma20 data ∧ std20 (pre ++ data) = std20 data ∧
    upper (pre ++ data) = upper data ∧ lower (pre ++ data) = lower data := by
  have hs : lastN 20 (closes (pre ++ data)) = lastN 20 (closes data) := by
    rw [closes_append, lastN_append (closes pre) (by rw [length_closes]; exact h)]
  have h1 : sma20 (pre ++ data) = sma20 data := by
    unfold sma20
    rw [hs]
  have h2 : std20 (pre ++ data) = std20 data := by
    unfold std20
    rw [hs]
  have h3 : upper (pre ++ data) = upper data := by
    unfold upper
    rw [h1, h2]
  have h4 : lower (pre ++ data) = lower data := by
    unfold lower
    rw [h1, h2]
  exact ⟨h1, h2, h3, h4⟩

/-- Witness for `bollinger_last20_only` at a concrete input. -/
theorem bollinger_last20_only_witness :
    20 ≤ (flat 3 4).length ∧
    (sma20 ([⟨1, 2⟩] ++ flat 3 4) = sma20 (flat 3 4) ∧
     std20 ([⟨1, 2⟩] ++ flat 3 4) = std20 (flat 3 4) ∧
     upper ([⟨1, 2⟩] ++ flat 3 4) = upper (flat 3 4) ∧
     lower ([⟨1, 2⟩] ++ flat 3 4) = lower (flat 3 4)) :=
  ⟨by simp [flat], bollinger_last20_only [⟨1, 2⟩] (flat 3 4) (by simp [flat])⟩

/-- C6 counterexample: on 20 candles all closing at −100 the band
degenerates (`upper = lower = −100`), `safe_upper = −100.5` lies *below*
the close and `safe_lower = −99.5` lies *above* it; the first branch
fires, so `cross = "ABOVE"` even though `last < safe_lower` — the
claimed "BELOW iff last < safe_lower" fails right-to-left. -/
theorem cross_below_iff_cex :
    cross (flat (-100) 0) = "ABOVE" ∧
    last (flat (-100) 0) < safe_lower (flat (-100) 0) ∧
    cross (flat (-100) 0) ≠ "BELOW" := by
  have hc : last (flat (-100) 0) > safe_upper (flat (-100) 0) := by
    rw [last_flat, safe_upper_flat]
    norm_num
  have h1 : cross (flat (-100) 0) = "ABOVE" := by
    unfold cross
    rw [if_pos hc]
  have h2 : last (flat (-100) 0) < safe_lower (flat (-100) 0) := by
    rw [last_flat, safe_lower_flat]
    norm_num
  refine ⟨h1, h2, ?_⟩
  rw [h1]
  decide

/-- C6 (amended): `cross` compares the most recent close against
`safe_upper`/`safe_lower` (not `upper`/`lower`): it is `"ABOVE"` iff
`last > safe_upper`; `"BELOW"` iff `last < safe_lower` *and not*
`last > safe_upper` (the ABOVE branch is checked first); otherwise
`"no cross"`; and every close strictly between `upper` and `safe_upper`
yields `"no cross"`. -/
theorem cross_spec_amended (data : List Candle) (h : 20 ≤ data.length) :
    (cross data = "ABOVE" ↔ last data > safe_upper data) ∧
    (cross data = "BELOW" ↔ last data < safe_lower data ∧ ¬last data > safe_upper data) ∧
    ((¬last data > safe_upper data ∧ ¬last data < safe_lower data) → cross data = "no cross") ∧
    (upper data < last data → last data < safe_upper data → cross data = "no cross") := by
  have hσ : 0 ≤ std20 data := by
    unfold std20 pstdev
    exact Real.sqrt_nonneg _
  have hsu : safe_upper data = upper data * 1.005 := rfl
  have hsl : safe_lower data = lower data * 0.995 := rfl
  have hul : lower data ≤ upper data := by
    unfold upper lower
    linarith
  refine ⟨?_, ?_, ?_, ?_⟩
  · constructor
    · intro hc
      by_cases h1 : last data > safe_upper data
      · exact h1
      · exfalso
        unfold cross at hc
        rw [if_neg h1] at hc
        by_cases h2 : last data < safe_lower data
        · rw [if_pos h2] at hc
          exact absurd hc (by decide)
        · rw [if_neg h2] at hc
          exact absurd hc (by decide)
    · intro h1
      unfold cross
      rw [if_pos h1]
  · constructor
    · intro hc
      by_cases h1 : last data > safe_upper data
      · exfalso
        unfold cross at hc
        rw [if_pos h1] at hc
        exact absurd hc (by decide)
      · by_cases h2 : last data < safe_lower data
        · exact ⟨h2, h1⟩
        · exfalso
          unfold cross at hc
          rw [if_neg h1, if_neg h2] at hc
          exact absurd hc (by decide)
    · rintro ⟨h2, h1⟩
      unfold cross
      rw [if_neg h1, if_pos h2]
  · rintro ⟨h1, h2⟩
    unfold cross
    rw [if_neg h1, if_neg h2]
  · intro hu hsu2
    have h1 : ¬last data > safe_upper data := by linarith
    have hupos : 0 < upper data := by
      rw [hsu] at hsu2
      nlinarith
    have h2 : ¬last data < safe_lower data := by
      rw [hsl]
      by_cases hl0 : 0 ≤ lower data
      · nlinarith
      · nlinarith
    unfold cross
    rw [if_neg h1, if_neg h2]

/-- Witness for `cross_spec_amended`: on `D6` the final close 1010 lies
strictly between `upper = 1007` and `safe_upper = 1012.035`, and the
cross is `"no cross"`. -/
theorem cross_spec_amended_witness :
    20 ≤ D6.length ∧ upper D6 < last D6 ∧ last D6 < safe_upper D6 ∧
    cross D6 = "no cross" := by
  have h20 : 20 ≤ D6.length := by rw [length_D6]
  have h1 : upper D6 < last D6 := by
    rw [upper_D6, last_D6]
    norm_num
  have h2 : last D6 < safe_upper D6 := by
    have hsu : safe_upper D6 = upper D6 * 1.005 := rfl
    rw [hsu, upper_D6, last_D6]
    norm_num
  exact ⟨h20, h1, h2, (cross_spec_amended D6 h20).2.2.2 h1 h2⟩

/-- C7: if the last 20 volumes sum to 0, `rvol` is exactly 0 (no division
occurs); if the 20-period average volume is nonzero, `rvol` is the last
volume divided by that average. -/
theorem rvol_zero_safe (data : List Candle) (h : 20 ≤ data.length) :
    ((lastN 20 (vols data)).sum = 0 → rvol data = 0) ∧
    (avg_vol20 data ≠ 0 → rvol data = last_vol data / avg_vol20 data) := by
  constructor
  · intro h0
    have ha : avg_vol20 data = 0 := by
      unfold avg_vol20
      rw [h0]
      simp
    unfold rvol
    rw [ha]
    simp
  · intro hne
    unfold rvol
    rw [if_pos hne]

/-- Witness for `rvol_zero_safe` at two concrete inputs: a zero-volume
flat market (sum is 0, `rvol = 0`) and a volume-10 flat market (average
is 10, `rvol` is the quotient). -/
theorem rvol_zero_safe_witness :
    20 ≤ (flat 5 0).length ∧ (lastN 20 (vols (flat 5 0))).sum = 0 ∧
    rvol (flat 5 0) = 0 ∧
    20 ≤ (flat 5 10).length ∧ avg_vol20 (flat 5 10) ≠ 0 ∧
    rvol (flat 5 10) = last_vol (flat 5 10) / avg_vol20 (flat 5 10) := by
  have hl0 : 20 ≤ (flat 5 0).length := by simp [flat]
  have hl1 : 20 ≤ (flat 5 10).length := by simp [flat]
  have hs : (lastN 20 (vols (flat 5 0))).sum = 0 := by
    rw [vols_flat, lastN_of_length_le (by simp), sum_replicate_real]
    norm_num
  have ha : avg_vol20 (flat 5 10) ≠ 0 := by
    have hv : avg_vol20 (flat 5 10) = 10 := by
      unfold avg_vol20
      rw [vols_flat, lastN_of_length_le (by simp), sum_replicate_real]
      norm_num
    rw [hv]
    norm_num
  exact ⟨hl0, hs, (rvol_zero_safe (flat 5 0) hl0).1 hs, hl1, ha,
    (rvol_zero_safe (flat 5 10) hl1).2 ha⟩

/-- C8 counterexample: on 20 candles all closing at −1 the band is
`upper = lower = −1`; then `safe_upper = −1.005 < upper` and
`safe_lower = −0.995 > lower`, so the safe band does not widen the raw
band. -/
theorem safe_band_negative_cex :
    safe_upper (flat (-1) 0) < upper (flat (-1) 0) ∧
    lower (flat (-1) 0) < safe_lower (flat (-1) 0) := by
  rw [safe_upper_flat, upper_flat, lower_flat, safe_lower_flat]
  norm_num

/-- C8 (amended): the safe band widens the statistical band on the side
that is nonnegative: `upper ≤ safe_upper` when `0 ≤ upper`, and
`safe_lower ≤ lower` when `0 ≤ lower`; in particular when `0 ≤ lower`
every price in `[lower, upper]` also lies in `[safe_lower, safe_upper]`.
(With negative band values the multiplicative tolerances shrink instead
— see the counterexample.) -/
theorem safe_band_widens_nonneg (data : List Candle) (h : 20 ≤ data.length) :
    (0 ≤ upper data → upper data ≤ safe_upper data) ∧
    (0 ≤ lower data → safe_lower data ≤ lower data) ∧
    (0 ≤ lower data → ∀ x : ℝ, lower data ≤ x → x ≤ upper data →
      safe_lower data ≤ x ∧ x ≤ safe_upper data) := by
  have hσ : 0 ≤ std20 data := by
    unfold std20 pstdev
    exact Real.sqrt_nonneg _
  have hsu : safe_upper data = upper data * 1.005 := rfl
  have hsl : safe_lower data = lower data * 0.995 := rfl
  have hul : lower data ≤ upper data := by
    unfold upper lower
    linarith
  refine ⟨?_, ?_, ?_⟩
  · intro h0
    rw [hsu]
    linarith
  · intro h0
    rw [hsl]
    linarith
  · intro h0 x hx1 hx2
    have h0u : 0 ≤ upper data := le_trans h0 hul
    constructor
    · rw [hsl]
      linarith
    · rw [hsu]
      linarith

/-- Witness for `safe_band_widens_nonneg` on a flat positive market
(`upper = lower = 100`). -/
theorem safe_band_widens_nonneg_witness :
    20 ≤ (flat 100 0).length ∧ 0 ≤ lower (flat 100 0) ∧
    upper (flat 100 0) ≤ safe_upper (flat 100 0) ∧
    safe_lower (flat 100 0) ≤ lower (flat 100 0) ∧
    (safe_lower (flat 100 0) ≤ 100 ∧ (100 : ℝ) ≤ safe_upper (flat 100 0)) := by
  have hl : 20 ≤ (flat 100 0).length := by simp [flat]
  have h0u : 0 ≤ upper (flat 100 0) := by
    rw [upper_flat]
    norm_num
  have h0l : 0 ≤ lower (flat 100 0) := by
    rw [lower_flat]
    norm_num
  obtain ⟨a, b, c⟩ := safe_band_widens_nonneg (flat 100 0) hl
  exact ⟨hl, h0l, a h0u, b h0l,
    c h0l 100 (by rw [lower_flat]) (by rw [upper_flat])⟩

/-- C10 (implicit): `compute` is total on every nonempty candle
sequence — even below the documented 20-candle minimum it returns a full
record, and for short input `sma20`/`avg_vol20` still divide the sum of
the available closes/volumes by the constant 20 rather than failing. -/
theorem compute_total_short_input (data : List Candle) (now : String)
    (h : 1 ≤ data.length) :
    (compute data now).isSome = true ∧
    (data.length ≤ 20 →
      sma20 data = (closes data).sum / 20 ∧
      avg_vol20 data = if (vols data).sum ≠ 0 then (vols data).sum / 20 else 0) := by
  constructor
  · have he : data.isEmpty = false := by
      cases data with
      | nil => simp at h
      | cons a l => rfl
    simp [compute, he]
  · intro h20
    constructor
    · unfold sma20
      rw [lastN_of_length_le (by rw [length_closes]; exact h20)]
    · unfold avg_vol20
      rw [lastN_of_length_le (by rw [length_vols]; exact h20)]

/-- Witness for `compute_total_short_input` on a single candle. -/
theorem compute_total_short_input_witness :
    1 ≤ ([⟨7, 3⟩] : List Candle).length ∧ ([⟨7, 3⟩] : List Candle).length ≤ 20 ∧
    (compute [⟨7, 3⟩] "t").isSome = true ∧
    sma20 [⟨7, 3⟩] = (closes [⟨7, 3⟩]).sum / 20 ∧
    avg_vol20 [⟨7, 3⟩] =
      if (vols [⟨7, 3⟩]).sum ≠ 0 then (vols [⟨7, 3⟩]).sum / 20 else 0 := by
  have h1 : 1 ≤ ([⟨7, 3⟩] : List Candle).length := by simp
  have h2 : ([⟨7, 3⟩] : List Candle).length ≤ 20 := by simp
  obtain ⟨a, b⟩ := compute_total_short_input [⟨7, 3⟩] "t" h1
  obtain ⟨c, d⟩ := b h2
  exact ⟨h1, h2, a, c, d⟩

/-- C1 counterexample: with every Binance attempt failing and a
CoinGecko response of five price points, the acquirer hands the caller a
five-candle sequence — non-empty but far below 20 — so the claimed
"at least 20 candles or None" contract does not hold on the fallback
path. -/
theorem acquire_min_length_cex :
    ¬(∀ (o : String → ℕ → Option (List Candle)) (cg : Option (List (ℝ × ℝ))),
        acquire o cg = none ∨
        ∃ d s, acquire o cg = some (d, s) ∧ 20 ≤ d.length) := by
  intro hclaim
  have hacq : acquire oFail cgFive = some (candlesFive, "CoinGecko") := rfl
  rcases hclaim oFail cgFive with hnone | ⟨d, s, hds, hlen⟩
  · rw [hacq] at hnone
    exact absurd hnone (by simp)
  · rw [hacq] at hds
    have heq := Option.some.inj hds
    have hd : candlesFive = d := congrArg Prod.fst heq
    rw [← hd] at hlen
    have : candlesFive.length = 5 := rfl
    rw [this] at hlen
    omega

/-- C1 (amended): the acquirer (primary fetch, then the fallback fetch
only if the primary yielded nothing) returns either no data, or at least
20 candles tagged "Binance", or a non-empty candle sequence — possibly
shorter than 20 — tagged "CoinGecko"; only the primary path guarantees
the 20-candle minimum. -/
theorem acquire_amended_sound (o : String → ℕ → Option (List Candle))
    (cg : Option (List (ℝ × ℝ))) :
    acquire o cg = none ∨
    (∃ d, acquire o cg = some (d, "Binance") ∧ 20 ≤ d.length) ∨
    (∃ d, acquire o cg = some (d, "CoinGecko") ∧ d ≠ []) := by
  cases hb : fetch_binance o with
  | some x =>
    cases x with
    | mk d s =>
      obtain ⟨hs, hlen⟩ := fetch_binance_sound hb
      right
      left
      refine ⟨d, ?_, hlen⟩
      unfold acquire
      rw [hb, hs]
  | none =>
    cases hc : fetch_coingecko_fallback cg with
    | none =>
      left
      unfold acquire
      rw [hb, hc]
    | some x =>
      cases x with
      | mk d s =>
        obtain ⟨hs, hne⟩ := fetch_coingecko_sound hc
        right
        right
        refine ⟨d, ?_, hne⟩
        unfold acquire
        rw [hb, hc, hs]

/-- C9: the fallback is consulted only when the primary path yielded no
data and at most once; and when both paths yield nothing, the program
produces exactly the minimal error record (time, error description,
`prediction = "no data"`, neutral marker, source tag `"none"`) and
terminates normally (no crash). -/
theorem fallback_once_and_error_record (o : String → ℕ → Option (List Candle))
    (cg : Option (List (ℝ × ℝ))) (now : String) :
    (runMain o cg now).2 ≤ 1 ∧
    ((runMain o cg now).2 = 1 ↔ fetch_binance o = none) ∧
    (fetch_binance o = none → fetch_coingecko_fallback cg = none →
      (runMain o cg now).1 =
        Payload.errorRecord now "Failed to fetch market data." "no data" "⚪" "none" ∧
      (runMain o cg now).1 ≠ Payload.crash) := by
  cases hb : fetch_binance o with
  | some x =>
    cases x with
    | mk d s =>
      have hr : runMain o cg now = (mkResult d s now, 0) := by
        unfold runMain
        rw [hb]
      rw [hr]
      refine ⟨by norm_num, by simp [hb], ?_⟩
      intro hbn
      exact absurd hbn (by simp)
  | none =>
    cases hc : fetch_coingecko_fallback cg with
    | some x =>
      cases x with
      | mk d s =>
        have hr : runMain o cg now = (mkResult d s now, 1) := by
          unfold runMain
          rw [hb, hc]
        rw [hr]
        refine ⟨le_refl 1, by simp [hb], ?_⟩
        intro _ hcn
        exact absurd hcn (by simp)
    | none =>
      have hr : runMain o cg now =
          (Payload.errorRecord now "Failed to fetch market data." "no data" "⚪" "none", 1) := by
        unfold runMain
        rw [hb, hc]
      rw [hr]
      exact ⟨le_refl 1, by simp [hb], fun _ _ =>
        ⟨rfl, fun hcrash => Payload.noConfusion hcrash⟩⟩

/-- Witness for `fallback_once_and_error_record`: all Binance attempts
fail and the CoinGecko request raises, so the run ends in the minimal
error record and no crash. -/
theorem fallback_once_and_error_record_witness :
    fetch_binance oFail = none ∧
    fetch_coingecko_fallback (none : Option (List (ℝ × ℝ))) = none ∧
    (runMain oFail none "2025-01-01 00:00 UTC").1 =
      Payload.errorRecord "2025-01-01 00:00 UTC" "Failed to fetch market data."
        "no data" "⚪" "none" ∧
    (runMain oFail none "2025-01-01 00:00 UTC").1 ≠ Payload.crash := by
  have hb : fetch_binance oFail = none := rfl
  have hc : fetch_coingecko_fallback (none : Option (List (ℝ × ℝ))) = none := rfl
  obtain ⟨-, -, h3⟩ :=
    fallback_once_and_error_record oFail none "2025-01-01 00:00 UTC"
  obtain ⟨h4, h5⟩ := h3 hb hc
  exact ⟨hb, hc, h4, h5⟩

end BtcAnalysis

end
